import Mathlib

/-!
Shallow embedding of src/youtube_comment_extractor.py.

The program walks a two-level paginated comment hierarchy: thread pages
(top-level comments, each possibly carrying an inline snapshot of replies
and an authoritative totalReplyCount) and, per parent comment, reply pages.
The embedding models the remote API as explicit response data: a list of
thread-page responses consumed in request order, and, for each parent id,
a list of reply-page responses consumed in request order.  Each response
either succeeds with a page or fails; failures are split into the two
exception classes the Python code distinguishes, HttpError and every other
exception (PyError.http versus PyError.other).  sys.exit(1) is modelled by
the RunResult.exit1 constructor, which carries the printed message and no
records.  Every request the collector issues is recorded in a trace of
requested page sizes, in request order.

The source file duplicates the per-item logic verbatim for the first
thread page (lines 37-120) and for continuation thread pages (lines
133-216); the embedding shares one definition (processItem) for both,
which is faithful because the two blocks are character-for-character
copies of each other.
-/

namespace YCE

/-- Snippet fields the program reads from a comment object. -/
structure Snip where
  authorDisplayName : String
  textDisplay : String
  likeCount : Nat
  publishedAt : String
  updatedAt : String
deriving Repr, DecidableEq

/-- A reply object: an id plus its snippet. -/
structure Reply where
  id : String
  snippet : Snip
deriving Repr, DecidableEq

/-- One item of a commentThreads page: the top-level comment id and
snippet, the optional inline replies snapshot (presence of the key
"replies"), and the totalReplyCount the API reports. -/
structure ThreadItem where
  topId : String
  topSnippet : Snip
  inlineReplies : Option (List Reply)
  totalReplyCount : Nat
deriving Repr, DecidableEq

/-- A commentThreads response page: items in API order and whether the
response carries a nextPageToken. -/
structure ThreadPage where
  items : List ThreadItem
  hasNextPageToken : Bool
deriving Repr, DecidableEq

/-- A comments (reply) response page. -/
structure ReplyPage where
  items : List Reply
  hasNextPageToken : Bool
deriving Repr, DecidableEq

/-- The two exception classes the Python code distinguishes: HttpError
(caught per branch on reply fetches, lines 118 and 214, and at top level,
line 218) and any other exception (caught only by the top-level catch-all,
line 221). -/
inductive PyError where
  | http (msg : String)
  | other (msg : String)
deriving Repr, DecidableEq

/-- Decidable equality of response values, needed to evaluate concrete
runs. -/
instance exceptDecEq {e a : Type} [DecidableEq e] [DecidableEq a] :
    DecidableEq (Except e a) := fun x y =>
  match x, y with
  | .ok v, .ok w =>
      if h : v = w then .isTrue (by rw [h])
      else .isFalse (by intro hc; cases hc; exact h rfl)
  | .error v, .error w =>
      if h : v = w then .isTrue (by rw [h])
      else .isFalse (by intro hc; cases hc; exact h rfl)
  | .ok _, .error _ => .isFalse (by intro hc; cases hc)
  | .error _, .ok _ => .isFalse (by intro hc; cases hc)

/-- The remote API, modelled as explicit response data: the successive
responses to thread-page requests, and for each parent id the successive
responses to reply-page requests. -/
structure Api where
  threadPages : List (Except PyError ThreadPage)
  replyPages : String → List (Except PyError ReplyPage)

/-- One output row, with the fields and names of the Python dict built at
lines 40-49 and 58-67. -/
structure Record where
  level : Nat
  author : String
  comment : String
  like_count : Nat
  published_at : String
  updated_at : String
  parent_id : String
  comment_id : String
deriving Repr, DecidableEq

/-- The level-0 record built from a thread item (lines 40-49):
parent_id is the empty string, comment_id the top-level comment id. -/
def mkTopRecord (it : ThreadItem) : Record :=
  { level := 0
    author := it.topSnippet.authorDisplayName
    comment := it.topSnippet.textDisplay
    like_count := it.topSnippet.likeCount
    published_at := it.topSnippet.publishedAt
    updated_at := it.topSnippet.updatedAt
    parent_id := ""
    comment_id := it.topId }

/-- The level-1 record built from a reply (lines 58-67, 85-94, 108-117):
parent_id is the id of the top-level comment of the enclosing thread. -/
def mkReplyRecord (parentId : String) (r : Reply) : Record :=
  { level := 1
    author := r.snippet.authorDisplayName
    comment := r.snippet.textDisplay
    like_count := r.snippet.likeCount
    published_at := r.snippet.publishedAt
    updated_at := r.snippet.updatedAt
    parent_id := parentId
    comment_id := r.id }

/-- Outcome of the reply-fetch block (lines 71-120): normal completion,
an HttpError caught by the inner handler (partial records kept, warning
message), or a non-HttpError exception that propagates out.  Each
outcome carries the records appended so far and (when not propagating)
the trace of requested page sizes. -/
inductive FetchOutcome where
  | ok (recs : List Record) (tr : List Nat)
  | caught (recs : List Record) (msg : String) (tr : List Nat)
  | fatal (msg : String)
deriving Repr, DecidableEq

/-- The reply-page continuation loop (lines 96-117): while the previous
response carries a nextPageToken, request the next page with maxResults
100 and append every reply of the page as a level-1 record, with no
duplicate check.  A missing response is a transport-level HttpError. -/
def fetchRepliesRest (parentId : String) :
    List (Except PyError ReplyPage) → Bool → List Record → List Nat → FetchOutcome
  | _, false, acc, tr => .ok acc tr
  | [], true, acc, tr => .caught acc "no response" (tr ++ [100])
  | .error (.http m) :: _, true, acc, tr => .caught acc m (tr ++ [100])
  | .error (.other m) :: _, true, _, _ => .fatal m
  | .ok page :: rest, true, acc, tr =>
      fetchRepliesRest parentId rest page.hasNextPageToken
        (acc ++ page.items.map (mkReplyRecord parentId)) (tr ++ [100])

/-- The whole reply-fetch block for one parent (lines 71-117): request the
first reply page with maxResults 100; append each of its replies whose id
is not among the inline ids (lines 79-94); then run the continuation loop.
A non-HttpError response propagates (FetchOutcome.fatal). -/
def fetchRepliesPaged (pages : List (Except PyError ReplyPage))
    (parentId : String) (inlineIds : List String) : FetchOutcome :=
  match pages with
  | [] => .caught [] "no response" [100]
  | .error (.http m) :: _ => .caught [] m [100]
  | .error (.other m) :: _ => .fatal m
  | .ok page0 :: rest =>
      fetchRepliesRest parentId rest page0.hasNextPageToken
        ((page0.items.filter (fun r => !(inlineIds.contains r.id))).map
          (mkReplyRecord parentId)) [100]

/-- The warning printed when a reply-page fetch raises HttpError
(lines 119 and 215). -/
def warnMsg (parentId msg : String) : String :=
  "Warning: Could not fetch all replies for comment " ++ parentId ++ ": " ++ msg

/-- Processing of one thread item (lines 37-120, duplicated at 133-216):
emit the level-0 record; if the item carries a replies snapshot, emit the
inline replies and, when totalReplyCount exceeds the inline count, run the
reply-fetch block.  A caught HttpError keeps the records fetched so far
and adds a warning naming the parent id; a non-HttpError propagates as
Except.error.  Returns records, warnings and request-size trace. -/
def processItem (R : String → List (Except PyError ReplyPage)) (it : ThreadItem) :
    Except PyError (List Record × List String × List Nat) :=
  match it.inlineReplies with
  | none => .ok ([mkTopRecord it], [], [])
  | some inl =>
      if inl.length < it.totalReplyCount then
        match fetchRepliesPaged (R it.topId) it.topId (inl.map (·.id)) with
        | .ok recs tr =>
            .ok (mkTopRecord it :: (inl.map (mkReplyRecord it.topId) ++ recs), [], tr)
        | .caught recs m tr =>
            .ok (mkTopRecord it :: (inl.map (mkReplyRecord it.topId) ++ recs),
                 [warnMsg it.topId m], tr)
        | .fatal m => .error (.other m)
      else .ok (mkTopRecord it :: inl.map (mkReplyRecord it.topId), [], [])

/-- Processing of the items of one thread page, in page order; the first
propagating error aborts. -/
def processItems (R : String → List (Except PyError ReplyPage)) :
    List ThreadItem → Except PyError (List Record × List String × List Nat)
  | [] => .ok ([], [], [])
  | it :: rest =>
      match processItem R it with
      | .error e => .error e
      | .ok (recs, ws, tr) =>
          match processItems R rest with
          | .error e => .error e
          | .ok (recs2, ws2, tr2) => .ok (recs ++ recs2, ws ++ ws2, tr ++ tr2)

/-- The count the loop condition recomputes at lines 123 and 127:
len([c for c in comments if c[level] == 0]). -/
def level0Count (recs : List Record) : Nat :=
  (recs.filter (fun c => c.level == 0)).length

/-- The thread-page continuation loop (lines 122-216): while the previous
response carries a nextPageToken and the emitted level-0 count is below
max_results, request the next page with maxResults
min(max_results - level0Count, 100) and process its items.  A failed (or
missing) response propagates, as do non-HttpError errors from item
processing. -/
def threadLoop (R : String → List (Except PyError ReplyPage))
    (rest : List (Except PyError ThreadPage)) (hasNext : Bool) (maxResults : Nat)
    (acc : List Record) (ws : List String) (tr : List Nat) :
    Except PyError (List Record × List String × List Nat) :=
  if hasNext = true ∧ level0Count acc < maxResults then
    match rest with
    | [] => .error (.http "no response")
    | .error e :: _ => .error e
    | .ok page :: rest2 =>
        match processItems R page.items with
        | .error e => .error e
        | .ok (recs, ws2, tr2) =>
            threadLoop R rest2 page.hasNextPageToken maxResults
              (acc ++ recs) (ws ++ ws2)
              (tr ++ [min (maxResults - level0Count acc) 100] ++ tr2)
  else .ok (acc, ws, tr)

/-- Result of get_video_comments: either the record list (with warnings
and request-size trace) or sys.exit(1) with the printed message. -/
inductive RunResult where
  | ok (recs : List Record) (warnings : List String) (trace : List Nat)
  | exit1 (msg : String)
deriving Repr, DecidableEq

/-- The messages printed by the two top-level handlers (lines 219, 222). -/
def errMsg : PyError → String
  | .http m => "An HTTP error occurred: " ++ m
  | .other m => "An error occurred: " ++ m

/-- get_video_comments (lines 10-225): request the first thread page with
maxResults = max_results (line 31, uncapped), process its items, then run
the thread-page continuation loop.  Any HttpError on a thread-page fetch,
and any non-HttpError anywhere, reaches a top-level handler: the message
is printed and the process exits with status 1, returning no records. -/
def get_video_comments (api : Api) (max_results : Nat) : RunResult :=
  match api.threadPages with
  | [] => .exit1 (errMsg (.http "no response"))
  | .error e :: _ => .exit1 (errMsg e)
  | .ok page0 :: rest =>
      match processItems api.replyPages page0.items with
      | .error e => .exit1 (errMsg e)
      | .ok (recs, ws, tr) =>
          match threadLoop api.replyPages rest page0.hasNextPageToken max_results
              recs ws (max_results :: tr) with
          | .error e => .exit1 (errMsg e)
          | .ok (recs2, ws2, tr2) => .ok recs2 ws2 tr2

/-- Result of main (lines 256-276): exit status 1 with a message, or
success.  File writing (save_comments_to_csv) is out of scope and modelled
as always succeeding; success carries the number of saved records. -/
inductive MainResult where
  | failure (msg : String)
  | success (savedCount : Nat)
deriving Repr, DecidableEq

/-- The process exit status of a main run. -/
def exitCode : MainResult → Nat
  | .failure _ => 1
  | .success _ => 0

/-- main (lines 256-276): collect, then exit 1 when the collection itself
exited (sys.exit inside get_video_comments) or when the result is empty
(lines 271-273); otherwise save and finish with status 0. -/
def pyMain (api : Api) (maxComments : Nat) : MainResult :=
  match get_video_comments api maxComments with
  | .exit1 m => .failure m
  | .ok recs _ _ =>
      if recs.isEmpty then
        .failure "No comments found or unable to retrieve comments."
      else .success recs.length

/-- The records of a run (empty for an exit). -/
def runRecs : RunResult → List Record
  | .ok r _ _ => r
  | .exit1 _ => []

/-- The request-size trace of a run (empty for an exit). -/
def runTrace : RunResult → List Nat
  | .ok _ _ t => t
  | .exit1 _ => []

/-- The records accumulated by a fetch outcome (empty when propagating). -/
def outRecs : FetchOutcome → List Record
  | .ok r _ => r
  | .caught r _ _ => r
  | .fatal _ => []

/-- The request-size trace of a fetch outcome. -/
def outTr : FetchOutcome → List Nat
  | .ok _ t => t
  | .caught _ _ t => t
  | .fatal _ => []

/-- The record block one thread item contributes. -/
def itemRecs (R : String → List (Except PyError ReplyPage)) (it : ThreadItem) :
    List Record :=
  match processItem R it with
  | .ok (r, _, _) => r
  | .error _ => []

/-- The items of a successful thread-page response. -/
def okPageItems : Except PyError ThreadPage → List ThreadItem
  | .ok p => p.items
  | .error _ => []

/-- Whether a fetch outcome is a propagating (non-HttpError) failure. -/
def isFatal : FetchOutcome → Bool
  | .fatal _ => true
  | _ => false

/-- Well-formed reply pagination: every page except the last carries a
nextPageToken and the last does not. -/
def chainOk : List ReplyPage → Bool
  | [] => true
  | [p] => !p.hasNextPageToken
  | p :: q :: rest => p.hasNextPageToken && chainOk (q :: rest)

/-- Record sequences that are a concatenation of thread blocks: each block
is one level-0 record (empty parent_id) followed by level-1 records whose
parent_id is that record's comment_id. -/
inductive FlatBlocks : List Record → Prop where
  | nil : FlatBlocks []
  | cons (top : Record) (tail rest : List Record) :
      top.level = 0 → top.parent_id = "" →
      (∀ r ∈ tail, r.level = 1 ∧ r.parent_id = top.comment_id) →
      FlatBlocks rest → FlatBlocks (top :: (tail ++ rest))

/-! Concrete API states used by counterexamples and witnesses. -/

/-- A fixed snippet used by the concrete scenarios. -/
def s0 : Snip := ⟨"u", "t", 0, "d", "d"⟩

/-- Reply with id a. -/
def repA : Reply := ⟨"a", s0⟩

/-- A second reply object that reuses id a. -/
def repA2 : Reply := ⟨"a", s0⟩

/-- Reply with id b. -/
def repB : Reply := ⟨"b", s0⟩

/-- Thread item for the C1 scenario: one inline reply with id a,
totalReplyCount 3. -/
def itC1 : ThreadItem := ⟨"p", s0, some [repA], 3⟩

/-- API state where the continuation reply page repeats the inline id a. -/
def apiC1 : Api :=
  { threadPages := [.ok ⟨[itC1], false⟩]
    replyPages := fun pid =>
      if pid = "p" then [.ok ⟨[repB], true⟩, .ok ⟨[repA2], false⟩] else [] }

/-- Thread item with no inline replies snapshot but totalReplyCount 5. -/
def itC2 : ThreadItem := ⟨"q", s0, none, 5⟩

/-- API state for the C2 scenario: the parent has a fetchable reply page,
but the thread item carries no inline snapshot. -/
def apiC2 : Api :=
  { threadPages := [.ok ⟨[itC2], false⟩]
    replyPages := fun _ => [.ok ⟨[repB], false⟩] }

/-- API state with a single thread page and no replies. -/
def apiC3 : Api :=
  { threadPages := [.ok ⟨[⟨"r", s0, none, 0⟩], false⟩]
    replyPages := fun _ => [] }

/-- Thread A of the partial-failure scenario: one inline reply,
totalReplyCount 3, two more replies on its reply page. -/
def itA : ThreadItem := ⟨"A", s0, some [⟨"a1", s0⟩], 3⟩

/-- Thread B of the partial-failure scenario: its reply-page fetch fails
with an HttpError. -/
def itB : ThreadItem := ⟨"B", s0, some [⟨"b1", s0⟩], 2⟩

/-- Thread C of the partial-failure scenario: no missing replies. -/
def itC : ThreadItem := ⟨"C", s0, some [], 0⟩

/-- API state for the partial-failure scenario (threads A, B, C; the
reply-page fetch for B raises HttpError). -/
def apiC8 : Api :=
  { threadPages := [.ok ⟨[itA, itB, itC], false⟩]
    replyPages := fun pid =>
      if pid = "A" then [.ok ⟨[⟨"a2", s0⟩, ⟨"a3", s0⟩], false⟩]
      else if pid = "B" then [.error (.http "boom")]
      else [] }

/-- API state where the reply-page fetch raises a non-HttpError. -/
def apiC10 : Api :=
  { threadPages := [.ok ⟨[itA], false⟩]
    replyPages := fun _ => [.error (.other "KeyError: items")] }

/-- API state with two thread pages, used by the order and parent
integrity witnesses. -/
def apiC6 : Api :=
  { threadPages := [.ok ⟨[itA], true⟩, .ok ⟨[itC], false⟩]
    replyPages := fun pid =>
      if pid = "A" then [.ok ⟨[⟨"a2", s0⟩], false⟩] else [] }

/-- API state whose first thread-page fetch fails. -/
def apiC7 : Api :=
  { threadPages := [.error (.http "down")]
    replyPages := fun _ => [] }

/-- API state with a successful but empty first thread page. -/
def apiC9 : Api :=
  { threadPages := [.ok ⟨[], false⟩]
    replyPages := fun _ => [] }

/-- Two plain thread items used by the bound-property witness. -/
def itD : ThreadItem := ⟨"D", s0, none, 0⟩

/-- Second plain thread item used by the bound-property witness. -/
def itE : ThreadItem := ⟨"E", s0, none, 0⟩

/-- A reply API with no recorded responses. -/
def noReplies : String → List (Except PyError ReplyPage) := fun _ => []

/-- The record list the apiC6 scenario produces with bound 2. -/
def recsW : List Record :=
  [mkTopRecord itA, mkReplyRecord "A" ⟨"a1", s0⟩, mkReplyRecord "A" ⟨"a2", s0⟩,
   mkTopRecord itC]

/-! Helper lemmas about the embedded collector. -/

@[simp]
theorem mkReplyRecord_level (pid : String) (r : Reply) :
    (mkReplyRecord pid r).level = 1 := rfl

@[simp]
theorem mkReplyRecord_parent (pid : String) (r : Reply) :
    (mkReplyRecord pid r).parent_id = pid := rfl

@[simp]
theorem mkReplyRecord_id (pid : String) (r : Reply) :
    (mkReplyRecord pid r).comment_id = r.id := rfl

@[simp]
theorem mkTopRecord_level (it : ThreadItem) : (mkTopRecord it).level = 0 := rfl

@[simp]
theorem mkTopRecord_parent (it : ThreadItem) : (mkTopRecord it).parent_id = "" := rfl

@[simp]
theorem mkTopRecord_id (it : ThreadItem) : (mkTopRecord it).comment_id = it.topId := rfl

/-- The reply continuation loop only appends level-1 records carrying the
parent id: whatever it returns extends the accumulator, and every added
record is a reply record of the parent. -/
theorem fetchRepliesRest_extends (pid : String) :
    ∀ (rest : List (Except PyError ReplyPage)) (b : Bool) (acc : List Record)
      (tr : List Nat),
      isFatal (fetchRepliesRest pid rest b acc tr) = true ∨
        ∃ t, outRecs (fetchRepliesRest pid rest b acc tr) = acc ++ t ∧
          ∀ r ∈ t, r.level = 1 ∧ r.parent_id = pid := by
  intro rest
  induction rest with
  | nil =>
    intro b acc tr
    cases b <;>
      exact Or.inr ⟨[], by simp [fetchRepliesRest, outRecs]⟩
  | cons hd tl ih =>
    intro b acc tr
    cases b with
    | false => exact Or.inr ⟨[], by simp [fetchRepliesRest, outRecs]⟩
    | true =>
      match hd with
      | .error (.http m) =>
        exact Or.inr ⟨[], by simp [fetchRepliesRest, outRecs]⟩
      | .error (.other m) =>
        exact Or.inl (by simp [fetchRepliesRest, isFatal])
      | .ok page =>
        have hstep : fetchRepliesRest pid (.ok page :: tl) true acc tr
            = fetchRepliesRest pid tl page.hasNextPageToken
                (acc ++ page.items.map (mkReplyRecord pid)) (tr ++ [100]) := rfl
        rw [hstep]
        rcases ih page.hasNextPageToken (acc ++ page.items.map (mkReplyRecord pid))
            (tr ++ [100]) with h | ⟨t, ht, hP⟩
        · exact Or.inl h
        · refine Or.inr ⟨page.items.map (mkReplyRecord pid) ++ t, ?_, ?_⟩
          · rw [ht, List.append_assoc]
          · intro r hr
            rcases List.mem_append.mp hr with hr | hr
            · rcases List.mem_map.mp hr with ⟨x, _, rfl⟩
              exact ⟨rfl, rfl⟩
            · exact hP r hr

/-- The reply continuation loop issues only requests of size 100: every
trace entry it returns is either inherited or equal to 100. -/
theorem fetchRepliesRest_trace (pid : String) :
    ∀ (rest : List (Except PyError ReplyPage)) (b : Bool) (acc : List Record)
      (tr : List Nat),
      ∀ s ∈ outTr (fetchRepliesRest pid rest b acc tr), s ∈ tr ∨ s = 100 := by
  intro rest
  induction rest with
  | nil =>
    intro b acc tr s hs
    cases b with
    | false =>
      simp [fetchRepliesRest, outTr] at hs
      exact Or.inl hs
    | true =>
      simp [fetchRepliesRest, outTr] at hs
      rcases hs with hs | hs
      · exact Or.inl hs
      · exact Or.inr hs
  | cons hd tl ih =>
    intro b acc tr s hs
    cases b with
    | false =>
      simp [fetchRepliesRest, outTr] at hs
      exact Or.inl hs
    | true =>
      match hd with
      | .error (.http m) =>
        simp [fetchRepliesRest, outTr] at hs
        rcases hs with hs | hs
        · exact Or.inl hs
        · exact Or.inr hs
      | .error (.other m) =>
        simp [fetchRepliesRest, outTr] at hs
      | .ok page =>
        have hstep : fetchRepliesRest pid (.ok page :: tl) true acc tr
            = fetchRepliesRest pid tl page.hasNextPageToken
                (acc ++ page.items.map (mkReplyRecord pid)) (tr ++ [100]) := rfl
        rw [hstep] at hs
        rcases ih page.hasNextPageToken _ (tr ++ [100]) s hs with h | h
        · rcases List.mem_append.mp h with h | h
          · exact Or.inl h
          · simp at h
            exact Or.inr h
        · exact Or.inr h

/-- The reply continuation loop never propagates when the remaining
responses contain no non-HttpError failure. -/
theorem fetchRepliesRest_not_fatal (pid : String) :
    ∀ (rest : List (Except PyError ReplyPage)) (b : Bool) (acc : List Record)
      (tr : List Nat),
      (∀ m, Except.error (PyError.other m) ∉ rest) →
      isFatal (fetchRepliesRest pid rest b acc tr) = false := by
  intro rest
  induction rest with
  | nil =>
    intro b acc tr _
    cases b <;> simp [fetchRepliesRest, isFatal]
  | cons hd tl ih =>
    intro b acc tr hno
    cases b with
    | false => simp [fetchRepliesRest, isFatal]
    | true =>
      match hd with
      | .error (.http m) => simp [fetchRepliesRest, isFatal]
      | .error (.other m) => exact absurd (List.mem_cons_self _ _) (hno m)
      | .ok page =>
        have hstep : fetchRepliesRest pid (.ok page :: tl) true acc tr
            = fetchRepliesRest pid tl page.hasNextPageToken
                (acc ++ page.items.map (mkReplyRecord pid)) (tr ++ [100]) := rfl
        rw [hstep]
        exact ih _ _ _ (fun m hm => hno m (List.mem_cons_of_mem _ hm))

/-- Every record the reply-fetch block returns is a level-1 record
carrying the parent id. -/
theorem fetchRepliesPaged_recs (pages : List (Except PyError ReplyPage))
    (pid : String) (ids : List String) :
    ∀ r ∈ outRecs (fetchRepliesPaged pages pid ids),
      r.level = 1 ∧ r.parent_id = pid := by
  match pages with
  | [] => intro r hr; simp [fetchRepliesPaged, outRecs] at hr
  | .error (.http m) :: _ => intro r hr; simp [fetchRepliesPaged, outRecs] at hr
  | .error (.other m) :: _ => intro r hr; simp [fetchRepliesPaged, outRecs] at hr
  | .ok page0 :: rest =>
    intro r hr
    have hstep : fetchRepliesPaged (.ok page0 :: rest) pid ids
        = fetchRepliesRest pid rest page0.hasNextPageToken
            ((page0.items.filter (fun x => !(ids.contains x.id))).map
              (mkReplyRecord pid)) [100] := rfl
    rw [hstep] at hr
    rcases fetchRepliesRest_extends pid rest page0.hasNextPageToken
        ((page0.items.filter (fun x => !(ids.contains x.id))).map
          (mkReplyRecord pid)) [100] with hf | ⟨t, ht, hP⟩
    · cases hout : fetchRepliesRest pid rest page0.hasNextPageToken
          ((page0.items.filter (fun x => !(ids.contains x.id))).map
            (mkReplyRecord pid)) [100] with
      | ok recs tr => rw [hout] at hf; simp [isFatal] at hf
      | caught recs m tr => rw [hout] at hf; simp [isFatal] at hf
      | fatal m => rw [hout] at hr; simp [outRecs] at hr
    · rw [ht] at hr
      rcases List.mem_append.mp hr with h | h
      · rcases List.mem_map.mp h with ⟨x, _, rfl⟩
        exact ⟨rfl, rfl⟩
      · exact hP r h

/-- Every request the reply-fetch block issues has size 100. -/
theorem fetchRepliesPaged_trace (pages : List (Except PyError ReplyPage))
    (pid : String) (ids : List String) :
    ∀ s ∈ outTr (fetchRepliesPaged pages pid ids), s = 100 := by
  match pages with
  | [] => intro s hs; simp [fetchRepliesPaged, outTr] at hs; exact hs
  | .error (.http m) :: _ =>
    intro s hs; simp [fetchRepliesPaged, outTr] at hs; exact hs
  | .error (.other m) :: _ => intro s hs; simp [fetchRepliesPaged, outTr] at hs
  | .ok page0 :: rest =>
    intro s hs
    have hstep : fetchRepliesPaged (.ok page0 :: rest) pid ids
        = fetchRepliesRest pid rest page0.hasNextPageToken
            ((page0.items.filter (fun x => !(ids.contains x.id))).map
              (mkReplyRecord pid)) [100] := rfl
    rw [hstep] at hs
    rcases fetchRepliesRest_trace pid rest page0.hasNextPageToken _ [100] s hs
      with h | h
    · simpa using h
    · exact h

/-- The reply-fetch block never propagates when the responses for the
parent contain no non-HttpError failure. -/
theorem fetchRepliesPaged_not_fatal (pages : List (Except PyError ReplyPage))
    (pid : String) (ids : List String)
    (hno : ∀ m, Except.error (PyError.other m) ∉ pages) :
    isFatal (fetchRepliesPaged pages pid ids) = false := by
  match pages with
  | [] => simp [fetchRepliesPaged, isFatal]
  | .error (.http m) :: _ => simp [fetchRepliesPaged, isFatal]
  | .error (.other m) :: _ => exact absurd (List.mem_cons_self _ _) (hno m)
  | .ok page0 :: rest =>
    have hstep : fetchRepliesPaged (.ok page0 :: rest) pid ids
        = fetchRepliesRest pid rest page0.hasNextPageToken
            ((page0.items.filter (fun x => !(ids.contains x.id))).map
              (mkReplyRecord pid)) [100] := rfl
    rw [hstep]
    exact fetchRepliesRest_not_fatal pid rest _ _ _
      (fun m hm => hno m (List.mem_cons_of_mem _ hm))

/-- Under well-formed reply pagination the continuation loop consumes
every remaining page, appending all their replies, one request of size
100 per page. -/
theorem fetchRepliesRest_chain (pid : String) :
    ∀ (ps : List ReplyPage) (acc : List Record) (tr : List Nat),
      ps ≠ [] → chainOk ps = true →
      fetchRepliesRest pid (ps.map Except.ok) true acc tr
        = .ok (acc ++ (ps.map (fun p => p.items.map (mkReplyRecord pid))).flatten)
              (tr ++ List.replicate ps.length 100) := by
  intro ps
  induction ps with
  | nil => intro acc tr hne _; exact absurd rfl hne
  | cons p ps ih =>
    intro acc tr _ hchain
    have hstep : fetchRepliesRest pid ((p :: ps).map Except.ok) true acc tr
        = fetchRepliesRest pid (ps.map Except.ok) p.hasNextPageToken
            (acc ++ p.items.map (mkReplyRecord pid)) (tr ++ [100]) := rfl
    rw [hstep]
    cases ps with
    | nil =>
      have hfalse : p.hasNextPageToken = false := by
        simpa [chainOk] using hchain
      rw [hfalse]
      simp [fetchRepliesRest, List.replicate]
    | cons q qs =>
      have htrue : p.hasNextPageToken = true := by
        simp [chainOk] at hchain
        exact hchain.1
      have hchain2 : chainOk (q :: qs) = true := by
        simp [chainOk] at hchain
        exact hchain.2
      rw [htrue, ih _ _ (by simp) hchain2]
      simp [List.replicate_succ, List.append_assoc]

/-- Under well-formed reply pagination the whole reply-fetch block
succeeds, appending the deduplicated first page followed by every
continuation page wholesale, one request of size 100 per page. -/
theorem fetchRepliesPaged_chain (pid : String) (ids : List String)
    (p0 : ReplyPage) (ps : List ReplyPage)
    (hchain : chainOk (p0 :: ps) = true) :
    fetchRepliesPaged ((p0 :: ps).map Except.ok) pid ids
      = .ok ((p0.items.filter (fun r => !(ids.contains r.id))).map
              (mkReplyRecord pid)
            ++ (ps.map (fun p => p.items.map (mkReplyRecord pid))).flatten)
            (List.replicate (ps.length + 1) 100) := by
  have hstep : fetchRepliesPaged ((p0 :: ps).map Except.ok) pid ids
      = fetchRepliesRest pid (ps.map Except.ok) p0.hasNextPageToken
          ((p0.items.filter (fun r => !(ids.contains r.id))).map
            (mkReplyRecord pid)) [100] := rfl
  rw [hstep]
  cases ps with
  | nil =>
    have hfalse : p0.hasNextPageToken = false := by
      simpa [chainOk] using hchain
    rw [hfalse]
    simp [fetchRepliesRest, List.replicate]
  | cons q qs =>
    have htrue : p0.hasNextPageToken = true := by
      simp [chainOk] at hchain
      exact hchain.1
    have hchain2 : chainOk (q :: qs) = true := by
      simp [chainOk] at hchain
      exact hchain.2
    rw [htrue, fetchRepliesRest_chain pid (q :: qs) _ _ (by simp) hchain2]
    simp [List.replicate_succ]

@[simp]
theorem level0Count_nil : level0Count [] = 0 := rfl

theorem level0Count_append (a b : List Record) :
    level0Count (a ++ b) = level0Count a + level0Count b := by
  simp [level0Count, List.filter_append]

/-- A block of one level-0 record followed by level-1 records counts as
one level-0 record. -/
theorem level0Count_block (top : Record) (t : List Record)
    (htop : top.level = 0) (ht : ∀ r ∈ t, r.level = 1) :
    level0Count (top :: t) = 1 := by
  have hnil : t.filter (fun c => c.level == 0) = [] := by
    rw [List.filter_eq_nil_iff]
    intro a ha
    simp [ht a ha]
  simp [level0Count, List.filter_cons, htop, hnil]

/-- An item without an inline replies snapshot contributes exactly its
level-0 record: no reply fetch, no warning, no request. -/
theorem processItem_noSnapshot (R : String → List (Except PyError ReplyPage))
    (it : ThreadItem) (h : it.inlineReplies = none) :
    processItem R it = .ok ([mkTopRecord it], [], []) := by
  simp [processItem, h]

/-- Unfolding equation for processItem on an item carrying an inline
replies snapshot. -/
theorem processItem_some (R : String → List (Except PyError ReplyPage))
    (it : ThreadItem) (inl : List Reply) (h : it.inlineReplies = some inl) :
    processItem R it
      = if inl.length < it.totalReplyCount then
          match fetchRepliesPaged (R it.topId) it.topId (inl.map (·.id)) with
          | .ok recs tr =>
              .ok (mkTopRecord it :: (inl.map (mkReplyRecord it.topId) ++ recs), [], tr)
          | .caught recs m tr =>
              .ok (mkTopRecord it :: (inl.map (mkReplyRecord it.topId) ++ recs),
                   [warnMsg it.topId m], tr)
          | .fatal m => .error (.other m)
        else .ok (mkTopRecord it :: inl.map (mkReplyRecord it.topId), [], []) := by
  unfold processItem
  rw [h]

/-- A successful item contribution is its level-0 record followed by
level-1 records carrying its id as parent. -/
theorem processItem_shape (R : String → List (Except PyError ReplyPage))
    (it : ThreadItem) (recs : List Record) (ws : List String) (tr : List Nat)
    (hok : processItem R it = .ok (recs, ws, tr)) :
    ∃ t, recs = mkTopRecord it :: t ∧
      ∀ r ∈ t, r.level = 1 ∧ r.parent_id = it.topId := by
  cases hinl : it.inlineReplies with
  | none =>
    rw [processItem_noSnapshot R it hinl] at hok
    simp only [Except.ok.injEq, Prod.mk.injEq] at hok
    exact ⟨[], by simp [← hok.1], by simp⟩
  | some inl =>
    rw [processItem_some R it inl hinl] at hok
    by_cases hlt : inl.length < it.totalReplyCount
    · rw [if_pos hlt] at hok
      cases hfp : fetchRepliesPaged (R it.topId) it.topId (inl.map (·.id)) with
      | ok recs2 tr2 =>
        rw [hfp] at hok
        simp only [Except.ok.injEq, Prod.mk.injEq] at hok
        refine ⟨inl.map (mkReplyRecord it.topId) ++ recs2, by simp [← hok.1], ?_⟩
        intro r hr
        rcases List.mem_append.mp hr with h | h
        · rcases List.mem_map.mp h with ⟨x, _, rfl⟩
          exact ⟨rfl, rfl⟩
        · have := fetchRepliesPaged_recs (R it.topId) it.topId (inl.map (·.id)) r
          rw [hfp] at this
          exact this h
      | caught recs2 m tr2 =>
        rw [hfp] at hok
        simp only [Except.ok.injEq, Prod.mk.injEq] at hok
        refine ⟨inl.map (mkReplyRecord it.topId) ++ recs2, by simp [← hok.1], ?_⟩
        intro r hr
        rcases List.mem_append.mp hr with h | h
        · rcases List.mem_map.mp h with ⟨x, _, rfl⟩
          exact ⟨rfl, rfl⟩
        · have := fetchRepliesPaged_recs (R it.topId) it.topId (inl.map (·.id)) r
          rw [hfp] at this
          exact this h
      | fatal m =>
        rw [hfp] at hok
        simp at hok
    · rw [if_neg hlt] at hok
      simp only [Except.ok.injEq, Prod.mk.injEq] at hok
      refine ⟨inl.map (mkReplyRecord it.topId), by simp [← hok.1], ?_⟩
      intro r hr
      rcases List.mem_map.mp hr with ⟨x, _, rfl⟩
      exact ⟨rfl, rfl⟩

/-- A successful item contribution contains exactly one level-0 record. -/
theorem processItem_level0 (R : String → List (Except PyError ReplyPage))
    (it : ThreadItem) (recs : List Record) (ws : List String) (tr : List Nat)
    (hok : processItem R it = .ok (recs, ws, tr)) :
    level0Count recs = 1 := by
  obtain ⟨t, ht, hP⟩ := processItem_shape R it recs ws tr hok
  rw [ht]
  exact level0Count_block _ _ rfl (fun r hr => (hP r hr).1)

/-- Every request an item contribution issues has size 100 (reply-page
requests only). -/
theorem processItem_trace (R : String → List (Except PyError ReplyPage))
    (it : ThreadItem) (recs : List Record) (ws : List String) (tr : List Nat)
    (hok : processItem R it = .ok (recs, ws, tr)) :
    ∀ s ∈ tr, s = 100 := by
  cases hinl : it.inlineReplies with
  | none =>
    rw [processItem_noSnapshot R it hinl] at hok
    simp only [Except.ok.injEq, Prod.mk.injEq] at hok
    intro s hs
    rw [← hok.2.2] at hs
    simp at hs
  | some inl =>
    rw [processItem_some R it inl hinl] at hok
    by_cases hlt : inl.length < it.totalReplyCount
    · rw [if_pos hlt] at hok
      cases hfp : fetchRepliesPaged (R it.topId) it.topId (inl.map (·.id)) with
      | ok recs2 tr2 =>
        rw [hfp] at hok
        simp only [Except.ok.injEq, Prod.mk.injEq] at hok
        intro s hs
        rw [← hok.2.2] at hs
        have := fetchRepliesPaged_trace (R it.topId) it.topId (inl.map (·.id)) s
        rw [hfp] at this
        exact this hs
      | caught recs2 m tr2 =>
        rw [hfp] at hok
        simp only [Except.ok.injEq, Prod.mk.injEq] at hok
        intro s hs
        rw [← hok.2.2] at hs
        have := fetchRepliesPaged_trace (R it.topId) it.topId (inl.map (·.id)) s
        rw [hfp] at this
        exact this hs
      | fatal m =>
        rw [hfp] at hok
        simp at hok
    · rw [if_neg hlt] at hok
      simp only [Except.ok.injEq, Prod.mk.injEq] at hok
      intro s hs
      rw [← hok.2.2] at hs
      simp at hs

/-- When the reply responses for the item contain no non-HttpError
failure, item processing never propagates. -/
theorem processItem_ok (R : String → List (Except PyError ReplyPage))
    (it : ThreadItem)
    (hno : ∀ m, Except.error (PyError.other m) ∉ R it.topId) :
    ∃ x, processItem R it = .ok x := by
  cases hinl : it.inlineReplies with
  | none => exact ⟨_, processItem_noSnapshot R it hinl⟩
  | some inl =>
    rw [processItem_some R it inl hinl]
    by_cases hlt : inl.length < it.totalReplyCount
    · rw [if_pos hlt]
      have hnf := fetchRepliesPaged_not_fatal (R it.topId) it.topId
        (inl.map (·.id)) hno
      cases hfp : fetchRepliesPaged (R it.topId) it.topId (inl.map (·.id)) with
      | ok recs2 tr2 => exact ⟨_, rfl⟩
      | caught recs2 m tr2 => exact ⟨_, rfl⟩
      | fatal m => rw [hfp] at hnf; simp [isFatal] at hnf
    · rw [if_neg hlt]
      exact ⟨_, rfl⟩

/-- Processing a concatenation of item lists concatenates the successful
results componentwise. -/
theorem processItems_append_ok (R : String → List (Except PyError ReplyPage))
    (xs ys : List ThreadItem) (a d : List Record) (b e : List String)
    (c f : List Nat)
    (hx : processItems R xs = .ok (a, b, c))
    (hy : processItems R ys = .ok (d, e, f)) :
    processItems R (xs ++ ys) = .ok (a ++ d, b ++ e, c ++ f) := by
  induction xs generalizing a b c with
  | nil =>
    simp only [processItems] at hx
    simp only [Except.ok.injEq, Prod.mk.injEq] at hx
    obtain ⟨h1, h2, h3⟩ := hx
    simp [← h1, ← h2, ← h3, hy]
  | cons it xs ih =>
    simp only [processItems] at hx
    cases hit : processItem R it with
    | error e2 => rw [hit] at hx; simp at hx
    | ok x =>
      obtain ⟨r1, w1, t1⟩ := x
      rw [hit] at hx
      cases hxs : processItems R xs with
      | error e2 => rw [hxs] at hx; simp at hx
      | ok y =>
        obtain ⟨r2, w2, t2⟩ := y
        rw [hxs] at hx
        simp only [Except.ok.injEq, Prod.mk.injEq] at hx
        obtain ⟨h1, h2, h3⟩ := hx
        rw [List.cons_append]
        simp only [processItems, hit, ih r2 w2 t2 hxs]
        simp [← h1, ← h2, ← h3, List.append_assoc]

/-- A propagating error after a successful prefix aborts the whole
processing of the concatenation. -/
theorem processItems_append_err (R : String → List (Except PyError ReplyPage))
    (xs ys : List ThreadItem) (a : List Record) (b : List String)
    (c : List Nat) (e : PyError)
    (hx : processItems R xs = .ok (a, b, c))
    (hy : processItems R ys = .error e) :
    processItems R (xs ++ ys) = .error e := by
  induction xs generalizing a b c with
  | nil => simpa using hy
  | cons it xs ih =>
    simp only [processItems] at hx
    cases hit : processItem R it with
    | error e2 => rw [hit] at hx; simp at hx
    | ok x =>
      obtain ⟨r1, w1, t1⟩ := x
      rw [hit] at hx
      cases hxs : processItems R xs with
      | error e2 => rw [hxs] at hx; simp at hx
      | ok y =>
        obtain ⟨r2, w2, t2⟩ := y
        rw [List.cons_append]
        simp only [processItems, hit, ih r2 w2 t2 hxs]

/-- A successful page processing emits exactly the concatenation of the
per-item blocks, in item order, and every item processed successfully. -/
theorem processItems_structure (R : String → List (Except PyError ReplyPage))
    (items : List ThreadItem) (recs : List Record) (ws : List String)
    (tr : List Nat) (h : processItems R items = .ok (recs, ws, tr)) :
    recs = (items.map (itemRecs R)).flatten ∧
      ∀ it ∈ items, ∃ x, processItem R it = .ok x := by
  induction items generalizing recs ws tr with
  | nil =>
    simp only [processItems, Except.ok.injEq, Prod.mk.injEq] at h
    simp [← h.1]
  | cons it rest ih =>
    simp only [processItems] at h
    cases hit : processItem R it with
    | error e => rw [hit] at h; simp at h
    | ok x =>
      obtain ⟨r1, w1, t1⟩ := x
      rw [hit] at h
      cases hrest : processItems R rest with
      | error e => rw [hrest] at h; simp at h
      | ok y =>
        obtain ⟨r2, w2, t2⟩ := y
        rw [hrest] at h
        simp only [Except.ok.injEq, Prod.mk.injEq] at h
        obtain ⟨h1, _, _⟩ := h
        obtain ⟨hjoin, hall⟩ := ih r2 w2 t2 hrest
        constructor
        · rw [← h1, hjoin]
          simp [itemRecs, hit]
        · intro j hj
          rcases List.mem_cons.mp hj with rfl | hj
          · exact ⟨_, hit⟩
          · exact hall j hj

/-- A successful page processing emits exactly one level-0 record per
item. -/
theorem processItems_level0 (R : String → List (Except PyError ReplyPage))
    (items : List ThreadItem) (recs : List Record) (ws : List String)
    (tr : List Nat) (h : processItems R items = .ok (recs, ws, tr)) :
    level0Count recs = items.length := by
  induction items generalizing recs ws tr with
  | nil =>
    simp only [processItems, Except.ok.injEq, Prod.mk.injEq] at h
    simp [← h.1]
  | cons it rest ih =>
    simp only [processItems] at h
    cases hit : processItem R it with
    | error e => rw [hit] at h; simp at h
    | ok x =>
      obtain ⟨r1, w1, t1⟩ := x
      rw [hit] at h
      cases hrest : processItems R rest with
      | error e => rw [hrest] at h; simp at h
      | ok y =>
        obtain ⟨r2, w2, t2⟩ := y
        rw [hrest] at h
        simp only [Except.ok.injEq, Prod.mk.injEq] at h
        rw [← h.1, level0Count_append, processItem_level0 R it r1 w1 t1 hit,
          ih r2 w2 t2 hrest]
        simp [Nat.add_comm]

/-- Every request issued while processing the items of one page has size
100. -/
theorem processItems_trace (R : String → List (Except PyError ReplyPage))
    (items : List ThreadItem) (recs : List Record) (ws : List String)
    (tr : List Nat) (h : processItems R items = .ok (recs, ws, tr)) :
    ∀ s ∈ tr, s = 100 := by
  induction items generalizing recs ws tr with
  | nil =>
    simp only [processItems, Except.ok.injEq, Prod.mk.injEq] at h
    intro s hs
    rw [← h.2.2] at hs
    simp at hs
  | cons it rest ih =>
    simp only [processItems] at h
    cases hit : processItem R it with
    | error e => rw [hit] at h; simp at h
    | ok x =>
      obtain ⟨r1, w1, t1⟩ := x
      rw [hit] at h
      cases hrest : processItems R rest with
      | error e => rw [hrest] at h; simp at h
      | ok y =>
        obtain ⟨r2, w2, t2⟩ := y
        rw [hrest] at h
        simp only [Except.ok.injEq, Prod.mk.injEq] at h
        intro s hs
        rw [← h.2.2] at hs
        rcases List.mem_append.mp hs with hs | hs
        · exact processItem_trace R it r1 w1 t1 hit s hs
        · exact ih r2 w2 t2 hrest s hs

/-- When no reply response anywhere is a non-HttpError failure, page
processing never propagates. -/
theorem processItems_ok (R : String → List (Except PyError ReplyPage))
    (items : List ThreadItem)
    (hno : ∀ pid m, Except.error (PyError.other m) ∉ R pid) :
    ∃ x, processItems R items = .ok x := by
  induction items with
  | nil => exact ⟨_, rfl⟩
  | cons it rest ih =>
    obtain ⟨⟨r1, w1, t1⟩, hit⟩ := processItem_ok R it (hno it.topId)
    obtain ⟨⟨r2, w2, t2⟩, hrest⟩ := ih
    exact ⟨(r1 ++ r2, w1 ++ w2, t1 ++ t2), by simp only [processItems, hit, hrest]⟩

/-- The thread-page loop does not run when the guard fails: no token or
enough level-0 records already emitted. -/
theorem threadLoop_stop (R : String → List (Except PyError ReplyPage))
    (rest : List (Except PyError ThreadPage)) (b : Bool) (maxResults : Nat)
    (acc : List Record) (ws : List String) (tr : List Nat)
    (h : ¬(b = true ∧ level0Count acc < maxResults)) :
    threadLoop R rest b maxResults acc ws tr = .ok (acc, ws, tr) := by
  rw [threadLoop.eq_def, if_neg h]

/-- The loop on a failed thread-page response propagates the error. -/
theorem threadLoop_err (R : String → List (Except PyError ReplyPage))
    (e : PyError) (rest2 : List (Except PyError ThreadPage)) (maxResults : Nat)
    (acc : List Record) (ws : List String) (tr : List Nat)
    (h : level0Count acc < maxResults) :
    threadLoop R (.error e :: rest2) true maxResults acc ws tr
      = .error e := by
  rw [threadLoop.eq_def, if_pos ⟨rfl, h⟩]

/-- Whatever a successful loop run returns extends the accumulator with
the blocks of the items of the successfully fetched pages, in page order,
consuming some prefix of the remaining responses. -/
theorem threadLoop_structure (R : String → List (Except PyError ReplyPage)) :
    ∀ (rest : List (Except PyError ThreadPage)) (b : Bool) (maxR : Nat)
      (acc : List Record) (ws : List String) (tr : List Nat)
      (recs2 : List Record) (ws2 : List String) (tr2 : List Nat),
      threadLoop R rest b maxR acc ws tr = .ok (recs2, ws2, tr2) →
      ∃ n, n ≤ rest.length ∧
        (∀ resp ∈ rest.take n, ∃ p, resp = Except.ok p) ∧
        recs2 = acc
          ++ (((rest.take n).map okPageItems).flatten.map (itemRecs R)).flatten ∧
        ∀ j ∈ ((rest.take n).map okPageItems).flatten,
          ∃ x, processItem R j = .ok x := by
  intro rest
  induction rest with
  | nil =>
    intro b maxR acc ws tr recs2 ws2 tr2 h
    by_cases hg : b = true ∧ level0Count acc < maxR
    · rw [threadLoop.eq_def, if_pos hg] at h
      simp at h
    · rw [threadLoop_stop R _ b maxR acc ws tr hg] at h
      simp only [Except.ok.injEq, Prod.mk.injEq] at h
      exact ⟨0, by simp, by simp, by simp [← h.1], by simp⟩
  | cons hd tl ih =>
    intro b maxR acc ws tr recs2 ws2 tr2 h
    by_cases hg : b = true ∧ level0Count acc < maxR
    · rw [threadLoop.eq_def, if_pos hg] at h
      cases hd with
      | error e => simp at h
      | ok page =>
        simp only at h
        cases hpi : processItems R page.items with
        | error e => rw [hpi] at h; simp at h
        | ok x =>
          obtain ⟨r1, w1, t1⟩ := x
          rw [hpi] at h
          simp only at h
          obtain ⟨n, hn, hok, hrecs, hall⟩ := ih _ _ _ _ _ _ _ _ h
          obtain ⟨hjoin, -⟩ := processItems_structure R page.items r1 w1 t1 hpi
          refine ⟨n + 1, by simpa using hn, ?_, ?_, ?_⟩
          · intro resp hresp
            rw [List.take_succ_cons] at hresp
            rcases List.mem_cons.mp hresp with rfl | hresp
            · exact ⟨page, rfl⟩
            · exact hok resp hresp
          · rw [hrecs, hjoin, List.take_succ_cons]
            simp [okPageItems, List.append_assoc]
          · intro j hj
            rw [List.take_succ_cons] at hj
            simp only [List.map_cons, List.flatten_cons, okPageItems] at hj
            rcases List.mem_append.mp hj with hj | hj
            · exact (processItems_structure R page.items r1 w1 t1 hpi).2 j hj
            · exact hall j hj
    · rw [threadLoop_stop R _ b maxR acc ws tr hg] at h
      simp only [Except.ok.injEq, Prod.mk.injEq] at h
      exact ⟨0, by simp, by simp, by simp [← h.1], by simp⟩

/-- A successful loop run only appends requests of size at most 100 to
the trace. -/
theorem threadLoop_trace (R : String → List (Except PyError ReplyPage)) :
    ∀ (rest : List (Except PyError ThreadPage)) (b : Bool) (maxR : Nat)
      (acc : List Record) (ws : List String) (tr : List Nat)
      (recs2 : List Record) (ws2 : List String) (tr2 : List Nat),
      threadLoop R rest b maxR acc ws tr = .ok (recs2, ws2, tr2) →
      ∃ ext, tr2 = tr ++ ext ∧ ∀ s ∈ ext, s ≤ 100 := by
  intro rest
  induction rest with
  | nil =>
    intro b maxR acc ws tr recs2 ws2 tr2 h
    by_cases hg : b = true ∧ level0Count acc < maxR
    · rw [threadLoop.eq_def, if_pos hg] at h
      simp at h
    · rw [threadLoop_stop R _ b maxR acc ws tr hg] at h
      simp only [Except.ok.injEq, Prod.mk.injEq] at h
      exact ⟨[], by simp [← h.2.2], by simp⟩
  | cons hd tl ih =>
    intro b maxR acc ws tr recs2 ws2 tr2 h
    by_cases hg : b = true ∧ level0Count acc < maxR
    · rw [threadLoop.eq_def, if_pos hg] at h
      cases hd with
      | error e => simp at h
      | ok page =>
        simp only at h
        cases hpi : processItems R page.items with
        | error e => rw [hpi] at h; simp at h
        | ok x =>
          obtain ⟨r1, w1, t1⟩ := x
          rw [hpi] at h
          simp only at h
          obtain ⟨ext, hext, hb⟩ := ih _ _ _ _ _ _ _ _ h
          refine ⟨[min (maxR - level0Count acc) 100] ++ t1 ++ ext, ?_, ?_⟩
          · rw [hext]
            simp [List.append_assoc]
          · intro s hs
            simp only [List.append_assoc, List.mem_append, List.mem_singleton] at hs
            rcases hs with rfl | hs | hs
            · exact Nat.min_le_right _ _
            · rw [processItems_trace R page.items r1 w1 t1 hpi s hs]
            · exact hb s hs
    · rw [threadLoop_stop R _ b maxR acc ws tr hg] at h
      simp only [Except.ok.injEq, Prod.mk.injEq] at h
      exact ⟨[], by simp [← h.2.2], by simp⟩

/-- A successful collection consumes a non-empty prefix of the thread-page
responses, all successful, and returns exactly the concatenation of the
per-item blocks of their items, in page and item order. -/
theorem get_structure (api : Api) (maxR : Nat) (recs : List Record)
    (ws : List String) (tr : List Nat)
    (h : get_video_comments api maxR = .ok recs ws tr) :
    ∃ n, 1 ≤ n ∧ n ≤ api.threadPages.length ∧
      (∀ resp ∈ api.threadPages.take n, ∃ p, resp = Except.ok p) ∧
      recs = (((api.threadPages.take n).map okPageItems).flatten.map
        (itemRecs api.replyPages)).flatten ∧
      ∀ j ∈ ((api.threadPages.take n).map okPageItems).flatten,
        ∃ x, processItem api.replyPages j = .ok x := by
  unfold get_video_comments at h
  cases hpages : api.threadPages with
  | nil => rw [hpages] at h; simp at h
  | cons hd rest =>
    rw [hpages] at h
    cases hd with
    | error e => simp at h
    | ok page0 =>
      simp only at h
      cases hpi : processItems api.replyPages page0.items with
      | error e => rw [hpi] at h; simp at h
      | ok x =>
        obtain ⟨r0, w0, t0⟩ := x
        rw [hpi] at h
        simp only at h
        cases hloop : threadLoop api.replyPages rest page0.hasNextPageToken maxR
            r0 w0 (maxR :: t0) with
        | error e => rw [hloop] at h; simp at h
        | ok y =>
          obtain ⟨r2, w2, t2⟩ := y
          rw [hloop] at h
          simp only [Except.ok.injEq, RunResult.ok.injEq] at h
          obtain ⟨n, hn, hok, hrecs, hall⟩ :=
            threadLoop_structure api.replyPages rest page0.hasNextPageToken maxR
              r0 w0 (maxR :: t0) r2 w2 t2 hloop
          obtain ⟨hjoin, hallp⟩ :=
            processItems_structure api.replyPages page0.items r0 w0 t0 hpi
          refine ⟨n + 1, by simp, by simp; omega, ?_, ?_, ?_⟩
          · intro resp hresp
            rw [List.take_succ_cons] at hresp
            rcases List.mem_cons.mp hresp with rfl | hresp
            · exact ⟨page0, rfl⟩
            · exact hok resp hresp
          · rw [List.take_succ_cons, ← h.1, hrecs, hjoin]
            simp [okPageItems, List.append_assoc]
          · intro j hj
            rw [List.take_succ_cons] at hj
            simp only [List.map_cons, List.flatten_cons, okPageItems] at hj
            rcases List.mem_append.mp hj with hj | hj
            · exact hallp j hj
            · exact hall j hj

/-- The trace of a successful collection starts with the uncapped first
request of size max_results; every later request has size at most 100. -/
theorem get_trace (api : Api) (maxR : Nat) (recs : List Record)
    (ws : List String) (tr : List Nat)
    (h : get_video_comments api maxR = .ok recs ws tr) :
    ∃ t, tr = maxR :: t ∧ ∀ s ∈ t, s ≤ 100 := by
  unfold get_video_comments at h
  cases hpages : api.threadPages with
  | nil => rw [hpages] at h; simp at h
  | cons hd rest =>
    rw [hpages] at h
    cases hd with
    | error e => simp at h
    | ok page0 =>
      simp only at h
      cases hpi : processItems api.replyPages page0.items with
      | error e => rw [hpi] at h; simp at h
      | ok x =>
        obtain ⟨r0, w0, t0⟩ := x
        rw [hpi] at h
        simp only at h
        cases hloop : threadLoop api.replyPages rest page0.hasNextPageToken maxR
            r0 w0 (maxR :: t0) with
        | error e => rw [hloop] at h; simp at h
        | ok y =>
          obtain ⟨r2, w2, t2⟩ := y
          rw [hloop] at h
          simp only [RunResult.ok.injEq] at h
          obtain ⟨ext, hext, hb⟩ :=
            threadLoop_trace api.replyPages rest page0.hasNextPageToken maxR
              r0 w0 (maxR :: t0) r2 w2 t2 hloop
          refine ⟨t0 ++ ext, ?_, ?_⟩
          · rw [← h.2.2, hext]
            simp
          · intro s hs
            rcases List.mem_append.mp hs with hs | hs
            · rw [processItems_trace api.replyPages page0.items r0 w0 t0 hpi s hs]
            · exact hb s hs

/-- The concatenation of blocks (one level-0 record followed by its
level-1 records) is block shaped. -/
theorem flatBlocks_of_blocks (f : ThreadItem → List Record) :
    ∀ (its : List ThreadItem),
      (∀ it ∈ its, ∃ t, f it = mkTopRecord it :: t ∧
        ∀ r ∈ t, r.level = 1 ∧ r.parent_id = it.topId) →
      FlatBlocks (its.map f).flatten := by
  intro its
  induction its with
  | nil => intro _; simpa using FlatBlocks.nil
  | cons it rest ih =>
    intro hall
    obtain ⟨t, ht, hP⟩ := hall it (List.mem_cons_self _ _)
    have hrest := ih (fun j hj => hall j (List.mem_cons_of_mem _ hj))
    have : (List.map f (it :: rest)).flatten
        = mkTopRecord it :: (t ++ (List.map f rest).flatten) := by
      simp [ht]
    rw [this]
    exact FlatBlocks.cons (mkTopRecord it) t _ rfl rfl
      (fun r hr => by simpa using hP r hr) hrest

/-- In a block-shaped sequence every level-0 record has an empty
parent_id. -/
theorem flatBlocks_level0_parent {l : List Record} (h : FlatBlocks l) :
    ∀ r ∈ l, r.level = 0 → r.parent_id = "" := by
  induction h with
  | nil => intro r hr; simp at hr
  | cons top tail rest htop hpar htail hrest ih =>
    intro r hr hlev
    rcases List.mem_cons.mp hr with rfl | hr
    · exact hpar
    · rcases List.mem_append.mp hr with hr | hr
      · have := (htail r hr).1
        omega
      · exact ih r hr hlev

/-- In a block-shaped sequence, every level-1 record is preceded by a
level-0 record whose comment_id is its parent_id. -/
theorem flatBlocks_parent_exists {l : List Record} (h : FlatBlocks l) :
    ∀ (pre : List Record) (r : Record) (post : List Record),
      l = pre ++ r :: post → r.level = 1 →
      ∃ p ∈ pre, p.level = 0 ∧ p.comment_id = r.parent_id := by
  induction h with
  | nil =>
    intro pre r post heq _
    exact absurd heq.symm (by simp)
  | cons top tail rest htop hpar htail hrest ih =>
    intro pre r post heq hlev
    cases pre with
    | nil =>
      simp only [List.nil_append, List.cons.injEq] at heq
      rw [← heq.1] at hlev
      omega
    | cons p0 pre2 =>
      simp only [List.cons_append, List.cons.injEq] at heq
      obtain ⟨rfl, heq2⟩ := heq
      rcases List.append_eq_append_iff.mp heq2 with ⟨a2, ha1, ha2⟩ | ⟨c2, hc1, hc2⟩
      · obtain ⟨p, hp, hp0, hpid⟩ := ih a2 r post ha2 hlev
        refine ⟨p, ?_, hp0, hpid⟩
        rw [ha1]
        exact List.mem_cons_of_mem _ (List.mem_append_right _ hp)
      · cases c2 with
        | nil =>
          simp only [List.nil_append] at hc2
          obtain ⟨p, hp, -⟩ := ih [] r post hc2.symm hlev
          simp at hp
        | cons q c3 =>
          simp only [List.cons_append, List.cons.injEq] at hc2
          obtain ⟨rfl, -⟩ := hc2
          have hrt : r ∈ tail := by
            rw [hc1]
            exact List.mem_append_right _ (List.mem_cons_self _ _)
          exact ⟨top, List.mem_cons_self _ _, htop, (htail r hrt).2.symm⟩

/-- In a list whose images under f are pairwise distinct, at most one
element maps to any given value. -/
theorem countP_le_one_of_nodup (f : Record → String) :
    ∀ (l : List Record) (x : String), (l.map f).Nodup →
      l.countP (fun c => f c == x) ≤ 1 := by
  intro l
  induction l with
  | nil => intro x _; simp
  | cons a l ih =>
    intro x hnd
    simp only [List.map_cons, List.nodup_cons] at hnd
    rw [List.countP_cons]
    by_cases hax : f a = x
    · have hz : l.countP (fun c => f c == x) = 0 := by
        rw [List.countP_eq_zero]
        intro c hc hcx
        have hfc : f c = x := by simpa using hcx
        exact hnd.1 (by rw [hax]; exact List.mem_map.mpr ⟨c, hc, hfc⟩)
      simp [hz, hax]
    · have : (fun c => f c == x) a = false := by simp [hax]
      simp only [this]
      simpa using ih x hnd.2

/-- When the level-0 comment ids are pairwise distinct, a level-0 record
present in the list is counted exactly once. -/
theorem countP_level0_eq_one (recs : List Record) (x : String)
    (hnd : ((recs.filter (fun c => c.level == 0)).map
      (fun c => c.comment_id)).Nodup)
    (p : Record) (hp : p ∈ recs) (hlev : p.level = 0) (hid : p.comment_id = x) :
    recs.countP (fun c => (c.comment_id == x) && (c.level == 0)) = 1 := by
  rw [← List.countP_filter]
  apply le_antisymm
  · exact countP_le_one_of_nodup (fun c => c.comment_id) _ x hnd
  · have hmem : p ∈ recs.filter (fun c => c.level == 0) :=
      List.mem_filter.mpr ⟨hp, by simp [hlev]⟩
    exact List.countP_pos_iff.mpr ⟨p, hmem, by simp [hid]⟩

/-! Claim theorems. -/

/-- C7.  If fetching any thread page fails, the entire collection aborts:
a failed first thread-page response makes get_video_comments exit with
status 1 printing the handler message and returning no records (the
exit1 result carries none), and a failed continuation thread-page
response makes the thread-page loop propagate the error, which the
top-level handler turns into the same exit. -/
theorem c7_thread_page_failure_aborts :
    (∀ (api : Api) (maxR : Nat) (e : PyError)
        (rest : List (Except PyError ThreadPage)),
      api.threadPages = .error e :: rest →
      get_video_comments api maxR = .exit1 (errMsg e)) ∧
    (∀ (R : String → List (Except PyError ReplyPage)) (e : PyError)
        (rest2 : List (Except PyError ThreadPage)) (maxR : Nat)
        (acc : List Record) (ws : List String) (tr : List Nat),
      level0Count acc < maxR →
      threadLoop R (.error e :: rest2) true maxR acc ws tr = .error e) := by
  constructor
  · intro api maxR e rest h
    unfold get_video_comments
    rw [h]
  · intro R e rest2 maxR acc ws tr h
    exact threadLoop_err R e rest2 maxR acc ws tr h

/-- Witness for C7 at a concrete API state whose first thread-page fetch
fails with an HttpError. -/
theorem c7_witness :
    (apiC7.threadPages = .error (.http "down") :: []) ∧
    get_video_comments apiC7 100 = .exit1 "An HTTP error occurred: down" ∧
    threadLoop apiC7.replyPages (.error (.http "down") :: []) true 100 [] [] []
      = .error (.http "down") :=
  ⟨rfl,
   c7_thread_page_failure_aborts.1 apiC7 100 (.http "down") [] rfl,
   c7_thread_page_failure_aborts.2 apiC7.replyPages (.http "down") [] 100 [] [] []
     (by decide)⟩

/-- C8.  A reply-page fetch failure caught as HttpError for one parent is
isolated: processing of the surrounding items succeeds, the failing item
keeps its level-0 record, its inline replies and whatever replies were
fetched before the failure, exactly one warning is emitted for it, placed
between the warnings of the preceding and following items, and the
warning message literally contains the parent id.  No abort happens: the
result is a normal success. -/
theorem c8_reply_failure_isolated
    (R : String → List (Except PyError ReplyPage))
    (pre post : List ThreadItem) (bad : ThreadItem)
    (inl : List Reply) (recsF : List Record) (m : String) (trF : List Nat)
    (r1 r2 : List Record) (w1 w2 : List String) (t1 t2 : List Nat)
    (hinl : bad.inlineReplies = some inl)
    (hcnt : inl.length < bad.totalReplyCount)
    (hfail : fetchRepliesPaged (R bad.topId) bad.topId (inl.map (·.id))
      = .caught recsF m trF)
    (hpre : processItems R pre = .ok (r1, w1, t1))
    (hpost : processItems R post = .ok (r2, w2, t2)) :
    processItems R (pre ++ bad :: post)
      = .ok (r1 ++ (mkTopRecord bad ::
              (inl.map (mkReplyRecord bad.topId) ++ recsF)) ++ r2,
             w1 ++ warnMsg bad.topId m :: w2,
             t1 ++ trF ++ t2) ∧
    warnMsg bad.topId m
      = "Warning: Could not fetch all replies for comment "
          ++ bad.topId ++ ": " ++ m := by
  have hbad : processItem R bad
      = .ok (mkTopRecord bad :: (inl.map (mkReplyRecord bad.topId) ++ recsF),
             [warnMsg bad.topId m], trF) := by
    rw [processItem_some R bad inl hinl, if_pos hcnt, hfail]
  have hmid : processItems R (bad :: post)
      = .ok ((mkTopRecord bad :: (inl.map (mkReplyRecord bad.topId) ++ recsF))
              ++ r2,
             warnMsg bad.topId m :: w2, trF ++ t2) := by
    simp only [processItems, hbad, hpost, List.singleton_append]
  constructor
  · have := processItems_append_ok R pre (bad :: post) r1 _ w1 _ t1 _ hpre hmid
    simpa [List.append_assoc] using this
  · rfl

/-- Witness for C8: the three-thread scenario in which the reply fetch of
the middle thread fails; the two other threads keep their full records
and the middle thread keeps its inline reply. -/
theorem c8_witness :
    (itB.inlineReplies = some [⟨"b1", s0⟩]) ∧
    ((1 : Nat) < itB.totalReplyCount) ∧
    processItems apiC8.replyPages ([itA] ++ itB :: [itC])
      = .ok ([mkTopRecord itA, mkReplyRecord "A" ⟨"a1", s0⟩,
              mkReplyRecord "A" ⟨"a2", s0⟩, mkReplyRecord "A" ⟨"a3", s0⟩]
              ++ (mkTopRecord itB :: ([mkReplyRecord "B" ⟨"b1", s0⟩] ++ []))
              ++ [mkTopRecord itC],
             [] ++ warnMsg "B" "boom" :: [],
             [100] ++ [100] ++ []) := by
  refine ⟨rfl, by decide, ?_⟩
  have h := (c8_reply_failure_isolated apiC8.replyPages [itA] [itC] itB
    [⟨"b1", s0⟩] [] "boom" [100]
    [mkTopRecord itA, mkReplyRecord "A" ⟨"a1", s0⟩,
      mkReplyRecord "A" ⟨"a2", s0⟩, mkReplyRecord "A" ⟨"a3", s0⟩]
    [mkTopRecord itC] [] [] [100] []
    rfl (by decide) (by decide) (by decide) (by decide)).1
  simpa using h

/-- C9.  main prints a message and exits with status 1 when the collection
returns an empty record list, the same status as when the collection
itself aborted; the exit status is 0 exactly when at least one record was
collected (saving is modelled as always succeeding, being outside the
traversal scope). -/
theorem c9_empty_result_exit (api : Api) (maxR : Nat) :
    (∀ (recs : List Record) (ws : List String) (tr : List Nat),
      get_video_comments api maxR = .ok recs ws tr → recs = [] →
      pyMain api maxR
          = .failure "No comments found or unable to retrieve comments." ∧
        exitCode (pyMain api maxR) = 1) ∧
    (∀ m, get_video_comments api maxR = .exit1 m →
      exitCode (pyMain api maxR) = 1) ∧
    (exitCode (pyMain api maxR) = 0 ↔
      ∃ recs ws tr, get_video_comments api maxR = .ok recs ws tr ∧
        recs ≠ []) := by
  refine ⟨?_, ?_, ?_⟩
  · intro recs ws tr h hre
    have hp : pyMain api maxR
        = .failure "No comments found or unable to retrieve comments." := by
      unfold pyMain
      rw [h, hre]
      rfl
    exact ⟨hp, by rw [hp]; rfl⟩
  · intro m h
    have hp : pyMain api maxR = .failure m := by
      unfold pyMain
      rw [h]
    rw [hp]
    rfl
  · constructor
    · intro h0
      cases hget : get_video_comments api maxR with
      | exit1 m =>
        have hp : pyMain api maxR = .failure m := by
          unfold pyMain
          rw [hget]
        rw [hp] at h0
        simp [exitCode] at h0
      | ok recs ws tr =>
        by_cases hre : recs.isEmpty
        · have hp : pyMain api maxR
              = .failure "No comments found or unable to retrieve comments." := by
            unfold pyMain
            rw [hget]
            simp [hre]
          rw [hp] at h0
          simp [exitCode] at h0
        · exact ⟨recs, ws, tr, rfl,
            by simpa [List.isEmpty_iff] using hre⟩
    · rintro ⟨recs, ws, tr, hget, hne⟩
      have hp : pyMain api maxR = .success recs.length := by
        unfold pyMain
        rw [hget]
        simp [List.isEmpty_iff, hne]
      rw [hp]
      rfl

/-- Witness for C9 at an API state with a successful but empty first
thread page: the run succeeds with zero records and main exits 1. -/
theorem c9_witness :
    (get_video_comments apiC9 100 = .ok [] [] [100]) ∧
    pyMain apiC9 100
        = .failure "No comments found or unable to retrieve comments." ∧
      exitCode (pyMain apiC9 100) = 1 :=
  ⟨by decide, (c9_empty_result_exit apiC9 100).1 [] [] [100] (by decide) rfl⟩

/-- C10.  A non-HttpError failure on a reply-page fetch is not recovered
per branch: it propagates to the top-level catch-all, which prints the
generic message and exits with status 1, returning no records (the exit1
result carries none).  Only HttpError receives the per-branch treatment. -/
theorem c10_catch_all (api : Api) (maxR : Nat) (page0 : ThreadPage)
    (rest : List (Except PyError ThreadPage)) (pre post : List ThreadItem)
    (bad : ThreadItem) (inl : List Reply) (m : String)
    (more : List (Except PyError ReplyPage))
    (r1 : List Record) (w1 : List String) (t1 : List Nat)
    (hapi : api.threadPages = .ok page0 :: rest)
    (hitems : page0.items = pre ++ bad :: post)
    (hpre : processItems api.replyPages pre = .ok (r1, w1, t1))
    (hinl : bad.inlineReplies = some inl)
    (hcnt : inl.length < bad.totalReplyCount)
    (hbad : api.replyPages bad.topId = .error (.other m) :: more) :
    get_video_comments api maxR = .exit1 ("An error occurred: " ++ m) := by
  have hfp : fetchRepliesPaged (api.replyPages bad.topId) bad.topId
      (inl.map (·.id)) = .fatal m := by
    rw [hbad]
    rfl
  have hbaditem : processItem api.replyPages bad = .error (.other m) := by
    rw [processItem_some _ bad inl hinl, if_pos hcnt, hfp]
  have hmid : processItems api.replyPages (bad :: post) = .error (.other m) := by
    simp only [processItems, hbaditem]
  have hall : processItems api.replyPages page0.items = .error (.other m) := by
    rw [hitems]
    exact processItems_append_err _ pre (bad :: post) r1 w1 t1 _ hpre hmid
  unfold get_video_comments
  rw [hapi]
  simp only [hall]
  rfl

/-- Witness for C10: a reply fetch that raises a KeyError-like exception
aborts the whole collection with the generic handler message. -/
theorem c10_witness :
    (apiC10.replyPages "A" = .error (.other "KeyError: items") :: []) ∧
    get_video_comments apiC10 100
      = .exit1 "An error occurred: KeyError: items" :=
  ⟨rfl,
   c10_catch_all apiC10 100 ⟨[itA], false⟩ [] [] [] itA [⟨"a1", s0⟩]
     "KeyError: items" [] [] [] [] rfl rfl rfl rfl (by decide) rfl⟩

/-- C6.  A successful collection is deterministic (it is a pure function
of the response data) and returns exactly the concatenation, in page and
API item order, of per-thread blocks, each being the level-0 record first
followed by that thread's level-1 records. -/
theorem c6_order_preservation (api : Api) (maxR : Nat) (recs : List Record)
    (ws : List String) (tr : List Nat)
    (h : get_video_comments api maxR = .ok recs ws tr) :
    ∃ n, 1 ≤ n ∧ n ≤ api.threadPages.length ∧
      (∀ resp ∈ api.threadPages.take n, ∃ p, resp = Except.ok p) ∧
      recs = (((api.threadPages.take n).map okPageItems).flatten.map
        (itemRecs api.replyPages)).flatten ∧
      ∀ j ∈ ((api.threadPages.take n).map okPageItems).flatten,
        ∃ t, itemRecs api.replyPages j = mkTopRecord j :: t ∧
          ∀ r ∈ t, r.level = 1 ∧ r.parent_id = j.topId := by
  obtain ⟨n, h1, h2, h3, h4, h5⟩ := get_structure api maxR recs ws tr h
  refine ⟨n, h1, h2, h3, h4, ?_⟩
  intro j hj
  obtain ⟨⟨rj, wj, tj⟩, hx⟩ := h5 j hj
  obtain ⟨t, ht, hP⟩ := processItem_shape _ j rj wj tj hx
  exact ⟨t, by simp [itemRecs, hx, ht], hP⟩

/-- Witness for C6 at the two-page scenario with bound 2. -/
theorem c6_witness :
    (get_video_comments apiC6 2 = .ok recsW [] [2, 100, 1]) ∧
    ∃ n, 1 ≤ n ∧ n ≤ apiC6.threadPages.length ∧
      (∀ resp ∈ apiC6.threadPages.take n, ∃ p, resp = Except.ok p) ∧
      recsW = (((apiC6.threadPages.take n).map okPageItems).flatten.map
        (itemRecs apiC6.replyPages)).flatten ∧
      ∀ j ∈ ((apiC6.threadPages.take n).map okPageItems).flatten,
        ∃ t, itemRecs apiC6.replyPages j = mkTopRecord j :: t ∧
          ∀ r ∈ t, r.level = 1 ∧ r.parent_id = j.topId :=
  ⟨by decide, c6_order_preservation apiC6 2 recsW [] [2, 100, 1] (by decide)⟩

/-- C5.  In a successful collection whose level-0 comment ids are
pairwise distinct (the uniqueness the data model postulates of the API),
every level-0 record has an empty parent_id, and every level-1 record is
preceded by a level-0 record carrying its parent_id as comment_id, the
only such level-0 record in the whole output. -/
theorem c5_parent_integrity (api : Api) (maxR : Nat) (recs : List Record)
    (ws : List String) (tr : List Nat)
    (h : get_video_comments api maxR = .ok recs ws tr)
    (hnd : ((recs.filter (fun c => c.level == 0)).map
      (fun c => c.comment_id)).Nodup) :
    (∀ r ∈ recs, r.level = 0 → r.parent_id = "") ∧
    ∀ (pre : List Record) (r : Record) (post : List Record),
      recs = pre ++ r :: post → r.level = 1 →
      (∃ p ∈ pre, p.level = 0 ∧ p.comment_id = r.parent_id) ∧
      recs.countP
        (fun c => (c.comment_id == r.parent_id) && (c.level == 0)) = 1 := by
  obtain ⟨n, -, -, -, h4, h5⟩ := get_structure api maxR recs ws tr h
  have hfb : FlatBlocks recs := by
    rw [h4]
    apply flatBlocks_of_blocks
    intro j hj
    obtain ⟨⟨rj, wj, tj⟩, hx⟩ := h5 j hj
    obtain ⟨t, ht, hP⟩ := processItem_shape _ j rj wj tj hx
    exact ⟨t, by simp [itemRecs, hx, ht], hP⟩
  refine ⟨flatBlocks_level0_parent hfb, ?_⟩
  intro pre r post heq hlev
  obtain ⟨p, hp, hp0, hpid⟩ := flatBlocks_parent_exists hfb pre r post heq hlev
  refine ⟨⟨p, hp, hp0, hpid⟩, ?_⟩
  apply countP_level0_eq_one recs r.parent_id hnd p ?_ hp0 hpid
  rw [heq]
  exact List.mem_append_left _ hp

/-- Witness for C5 at the two-page scenario with bound 2. -/
theorem c5_witness :
    (get_video_comments apiC6 2 = .ok recsW [] [2, 100, 1]) ∧
    ((recsW.filter (fun c => c.level == 0)).map
      (fun c => c.comment_id)).Nodup ∧
    ((∀ r ∈ recsW, r.level = 0 → r.parent_id = "") ∧
      ∀ (pre : List Record) (r : Record) (post : List Record),
        recsW = pre ++ r :: post → r.level = 1 →
        (∃ p ∈ pre, p.level = 0 ∧ p.comment_id = r.parent_id) ∧
        recsW.countP
          (fun c => (c.comment_id == r.parent_id) && (c.level == 0)) = 1) :=
  ⟨by decide, by decide,
   c5_parent_integrity apiC6 2 recsW [] [2, 100, 1] (by decide) (by decide)⟩

/-- C1 counterexample: with one thread (parent p, inline reply id a,
totalReplyCount 3) whose reply pagination returns id b on the first page
and repeats the inline id a on the continuation page, the output contains
the id a twice among the level-1 records of parent p: replies on
continuation reply pages are NOT checked against the inline ids (source
lines 96-117 append unconditionally), contradicting the claim for pages
reached via page token. -/
theorem c1_counterexample :
    get_video_comments apiC1 10
      = .ok [mkTopRecord itC1, mkReplyRecord "p" repA, mkReplyRecord "p" repB,
             mkReplyRecord "p" repA2] [] [10, 100, 100] ∧
    (runRecs (get_video_comments apiC1 10)).countP
        (fun r => (r.comment_id == "a") && (r.level == 1)
          && (r.parent_id == "p")) = 2 := by
  decide

/-- C1 amended: only the first reply page is deduplicated against the
inline-snapshot ids — every record contributed by the first fetched page
has an id outside the inline ids, while continuation pages are appended
with no duplicate check. -/
theorem c1_first_page_dedup (pid : String) (ids : List String)
    (page0 : ReplyPage) (rest : List (Except PyError ReplyPage))
    (hno : ∀ m, Except.error (PyError.other m) ∉ rest) :
    ∃ t, outRecs (fetchRepliesPaged (.ok page0 :: rest) pid ids)
        = (page0.items.filter (fun r => !(ids.contains r.id))).map
            (mkReplyRecord pid) ++ t ∧
      ∀ r ∈ (page0.items.filter (fun r => !(ids.contains r.id))).map
          (mkReplyRecord pid), r.comment_id ∉ ids := by
  have hstep : fetchRepliesPaged (.ok page0 :: rest) pid ids
      = fetchRepliesRest pid rest page0.hasNextPageToken
          ((page0.items.filter (fun r => !(ids.contains r.id))).map
            (mkReplyRecord pid)) [100] := rfl
  have hnf := fetchRepliesRest_not_fatal pid rest page0.hasNextPageToken
    ((page0.items.filter (fun r => !(ids.contains r.id))).map
      (mkReplyRecord pid)) [100] hno
  rcases fetchRepliesRest_extends pid rest page0.hasNextPageToken
      ((page0.items.filter (fun r => !(ids.contains r.id))).map
        (mkReplyRecord pid)) [100] with hf | ⟨t, ht, hP⟩
  · rw [hnf] at hf
    simp at hf
  · refine ⟨t, ?_, ?_⟩
    · rw [hstep]
      exact ht
    · intro r hr
      rcases List.mem_map.mp hr with ⟨x, hx, rfl⟩
      have hmem := (List.mem_filter.mp hx).2
      simp at hmem
      simpa using hmem

/-- Witness for the amended C1: at the apiC1 reply pagination the first
page contributes only id b, which is outside the inline id set. -/
theorem c1_witness :
    (∀ m, Except.error (PyError.other m)
      ∉ [Except.ok (⟨[repA2], false⟩ : ReplyPage)]) ∧
    ∃ t, outRecs (fetchRepliesPaged
          (.ok ⟨[repA, repB], true⟩ :: [Except.ok (⟨[repA2], false⟩ : ReplyPage)])
          "p" ["a"])
        = ((⟨[repA, repB], true⟩ : ReplyPage).items.filter
            (fun r => !((["a"] : List String).contains r.id))).map
            (mkReplyRecord "p") ++ t ∧
      ∀ r ∈ ((⟨[repA, repB], true⟩ : ReplyPage).items.filter
          (fun r => !((["a"] : List String).contains r.id))).map
          (mkReplyRecord "p"), r.comment_id ∉ (["a"] : List String) :=
  ⟨by intro m hm; simp at hm,
   c1_first_page_dedup "p" ["a"] ⟨[repA, repB], true⟩
     [Except.ok (⟨[repA2], false⟩ : ReplyPage)] (by intro m hm; simp at hm)⟩

/-- C2 counterexample: a thread item carrying no inline replies snapshot
but totalReplyCount 5, with a fetchable reply page, yields only its
level-0 record: no reply page is ever requested (the trace holds only the
thread-page request), contradicting the claim for snapshot-less items. -/
theorem c2_counterexample :
    get_video_comments apiC2 10 = .ok [mkTopRecord itC2] [] [10] ∧
    (runRecs (get_video_comments apiC2 10)).countP (fun r => r.level == 1) = 0 ∧
    itC2.inlineReplies = none ∧ itC2.totalReplyCount = 5 := by
  decide

/-- C2 amended: reply pages are fetched exactly for items that carry an
inline snapshot with totalReplyCount exceeding the inline count; for such
items, under well-formed pagination, every reply page is consumed (one
size-100 request per page) and the missing replies are appended; an item
without a snapshot triggers no fetch regardless of totalReplyCount. -/
theorem c2_reply_fetch_condition
    (R : String → List (Except PyError ReplyPage)) (it : ThreadItem) :
    (it.inlineReplies = none → processItem R it = .ok ([mkTopRecord it], [], [])) ∧
    (∀ (inl : List Reply) (p0 : ReplyPage) (ps : List ReplyPage),
      it.inlineReplies = some inl → inl.length < it.totalReplyCount →
      R it.topId = (p0 :: ps).map Except.ok → chainOk (p0 :: ps) = true →
      processItem R it = .ok
        (mkTopRecord it :: (inl.map (mkReplyRecord it.topId)
          ++ ((p0.items.filter
                (fun r => !((inl.map (·.id)).contains r.id))).map
                (mkReplyRecord it.topId)
            ++ (ps.map (fun p => p.items.map (mkReplyRecord it.topId))).flatten)),
         [], List.replicate (ps.length + 1) 100)) := by
  constructor
  · intro h
    exact processItem_noSnapshot R it h
  · intro inl p0 ps hinl hcnt hR hchain
    rw [processItem_some R it inl hinl, if_pos hcnt, hR,
      fetchRepliesPaged_chain it.topId (inl.map (·.id)) p0 ps hchain]

/-- Witness for the amended C2: thread A carries one inline reply with
totalReplyCount 3 and a single well-formed reply page, which is fetched
and fully appended. -/
theorem c2_witness :
    (itA.inlineReplies = some [⟨"a1", s0⟩]) ∧
    ((1 : Nat) < itA.totalReplyCount) ∧
    (apiC8.replyPages "A"
      = ([⟨[⟨"a2", s0⟩, ⟨"a3", s0⟩], false⟩] : List ReplyPage).map Except.ok) ∧
    (chainOk [⟨[⟨"a2", s0⟩, ⟨"a3", s0⟩], false⟩] = true) ∧
    processItem apiC8.replyPages itA
      = .ok (mkTopRecord itA :: ([⟨"a1", s0⟩].map (mkReplyRecord "A")
          ++ (((⟨[⟨"a2", s0⟩, ⟨"a3", s0⟩], false⟩ : ReplyPage).items.filter
                (fun r => !((([⟨"a1", s0⟩] : List Reply).map (·.id)).contains
                  r.id))).map (mkReplyRecord "A")
            ++ (([] : List ReplyPage).map
                (fun p => p.items.map (mkReplyRecord "A"))).flatten)),
         [], List.replicate (0 + 1) 100) :=
  ⟨rfl, by decide, by decide, by decide,
   (c2_reply_fetch_condition apiC8.replyPages itA).2 [⟨"a1", s0⟩]
     ⟨[⟨"a2", s0⟩, ⟨"a3", s0⟩], false⟩ [] rfl (by decide) (by decide) (by decide)⟩

/-- C3 counterexample: with maxTopLevel 150 the first thread-page request
asks for 150 items (source line 31 passes max_results uncapped), so not
every request respects the 100 cap. -/
theorem c3_counterexample :
    runTrace (get_video_comments apiC3 150) = [150] ∧
    ¬ ∀ s ∈ runTrace (get_video_comments apiC3 150), s ≤ 100 := by
  decide

/-- C3 amended: the trace of a successful run starts with the uncapped
first thread-page request of size maxTopLevel; every other request
(continuation thread pages and reply pages) asks for at most 100 items. -/
theorem c3_pagesize_cap (api : Api) (maxR : Nat) (recs : List Record)
    (ws : List String) (tr : List Nat)
    (h : get_video_comments api maxR = .ok recs ws tr) :
    ∃ t, tr = maxR :: t ∧ ∀ s ∈ t, s ≤ 100 :=
  get_trace api maxR recs ws tr h

/-- Witness for the amended C3 at the apiC3 scenario with bound 150. -/
theorem c3_witness :
    (get_video_comments apiC3 150
      = .ok [mkTopRecord ⟨"r", s0, none, 0⟩] [] [150]) ∧
    ∃ t, ([150] : List Nat) = 150 :: t ∧ ∀ s ∈ t, s ≤ 100 :=
  ⟨by decide,
   c3_pagesize_cap apiC3 150 [mkTopRecord ⟨"r", s0, none, 0⟩] [] [150]
     (by decide)⟩

/-- C4.  Against an API honoring requested page sizes (the first request,
which asks for maxTopLevel items uncapped, is answered with exactly
min(maxTopLevel, total) of the available top-level items, with a next
token exactly when more remain), a collection whose reply fetches raise
no non-HttpError succeeds, and its level-0 record count is
min(maxTopLevel, totalAvailableTopLevelComments); moreover the
thread-page loop fetches nothing unless a token exists and the emitted
level-0 count is still below the bound. -/
theorem c4_level0_bound (allItems : List ThreadItem)
    (R : String → List (Except PyError ReplyPage)) (n : Nat)
    (_hn : 0 < n)
    (hR : ∀ pid m, Except.error (PyError.other m) ∉ R pid) :
    (∃ recs ws tr,
      get_video_comments
          ⟨[Except.ok ⟨allItems.take n, !(allItems.drop n).isEmpty⟩], R⟩ n
        = .ok recs ws tr ∧ level0Count recs = min n allItems.length) ∧
    (∀ (R2 : String → List (Except PyError ReplyPage))
        (rest : List (Except PyError ThreadPage)) (b : Bool) (m2 : Nat)
        (acc : List Record) (ws : List String) (tr : List Nat),
      ¬(b = true ∧ level0Count acc < m2) →
      threadLoop R2 rest b m2 acc ws tr = .ok (acc, ws, tr)) := by
  constructor
  · obtain ⟨⟨r0, w0, t0⟩, hpi⟩ := processItems_ok R (allItems.take n) hR
    have hcount : level0Count r0 = min n allItems.length := by
      rw [processItems_level0 R _ r0 w0 t0 hpi, List.length_take]
    have hstop : threadLoop R [] (!(allItems.drop n).isEmpty) n r0 w0
        (n :: t0) = .ok (r0, w0, n :: t0) := by
      apply threadLoop_stop
      rintro ⟨hb, hlt⟩
      rw [hcount] at hlt
      have hdrop : ¬ (allItems.drop n).isEmpty = true := by
        simpa using hb
      rw [List.isEmpty_iff] at hdrop
      have hlen : n < allItems.length := by
        rcases Nat.lt_or_ge n allItems.length with h | h
        · exact h
        · exact absurd (List.drop_eq_nil_of_le h) hdrop
      rw [Nat.min_eq_left (Nat.le_of_lt hlen)] at hlt
      omega
    refine ⟨r0, w0, n :: t0, ?_, hcount⟩
    show (match processItems R (allItems.take n) with
      | .error e => RunResult.exit1 (errMsg e)
      | .ok (recs, ws, tr) =>
          match threadLoop R [] (!(allItems.drop n).isEmpty) n recs ws
              (n :: tr) with
          | .error e => RunResult.exit1 (errMsg e)
          | .ok (recs2, ws2, tr2) => RunResult.ok recs2 ws2 tr2)
      = RunResult.ok r0 w0 (n :: t0)
    rw [hpi]
    simp only
    rw [hstop]
  · intro R2 rest b m2 acc ws tr hg
    exact threadLoop_stop R2 rest b m2 acc ws tr hg

/-- Witness for C4: two available top-level items, bound 1, no replies:
exactly min(1, 2) = 1 level-0 record is emitted. -/
theorem c4_witness :
    (0 < 1) ∧
    (∀ pid m, Except.error (PyError.other m) ∉ noReplies pid) ∧
    ((∃ recs ws tr,
      get_video_comments
          ⟨[Except.ok ⟨[itD, itE].take 1, !([itD, itE].drop 1).isEmpty⟩],
            noReplies⟩ 1
        = .ok recs ws tr ∧ level0Count recs = min 1 [itD, itE].length) ∧
    (∀ (R2 : String → List (Except PyError ReplyPage))
        (rest : List (Except PyError ThreadPage)) (b : Bool) (m2 : Nat)
        (acc : List Record) (ws : List String) (tr : List Nat),
      ¬(b = true ∧ level0Count acc < m2) →
      threadLoop R2 rest b m2 acc ws tr = .ok (acc, ws, tr))) :=
  ⟨by decide, by intro pid m hm; simp [noReplies] at hm,
   c4_level0_bound [itD, itE] noReplies 1 (by decide)
     (by intro pid m hm; simp [noReplies] at hm)⟩

end YCE
